import Mathlib

/-!
Verification of the OptProd weekly production planner against its
natural-language specification.

The Lean definitions below are shallow embeddings of the Python source:

* `src/modelos/database_models.py` — the persisted entities (`Programacion`,
  `TareaPlanificada`, `EjecucionReal`, `Tarea`) and the two state enums;
* `src/modelos/database.py` — the lifecycle operations
  (`aprobar_programacion`, `cambiar_estado_programacion`,
  `eliminar_programacion`, `registrar_ejecucion_real`);
* `src/utils/db_helpers.py` — `dividir_tarea_en_partes` (the second
  definition in the file, at line 644, which shadows the earlier one at
  line 40 at module load time);
* `src/app_semanal.py` — `minutos_a_hora_dia` and the day-boundary
  special case used when mapping flat minutes to clock times;
* `src/utils/kpi_calculator.py` — the KPI computations;
* `src/optimizador_produccion.py` — the objective section of
  `crear_modelo`, restricted to single-machine inputs.

Modelling conventions:

* The SQLAlchemy session is replaced by an explicit `DBState` record of
  tables (lists of rows); a query-and-mutate on the row found by primary
  key becomes a `find?` followed by a keyed `map` update.
* Python `datetime` values are represented by their total number of
  minutes (an `Int`); the code only ever takes differences of datetimes
  and divides by 60, which is exact at minute resolution.
* Python floats in the KPI calculator are modelled as exact rationals
  (`Rat`); every claim these theorems touch is about ranges and exact
  quotients, not rounding.
* Logging, timestamps (`fecha_*`) and the metrics cache are elided: no
  claim below mentions them and they do not feed back into any of the
  computations under verification.
-/

namespace OptProd

/-- `EstadoProgramacion` from `database_models.py`. -/
inductive EstadoProgramacion where
  | simulacion
  | planificada
  | enEjecucion
  | completada
  | cancelada
  deriving DecidableEq, Repr

/-- `EstadoTarea` from `database_models.py` (only the two values
`registrar_ejecucion_real` derives are ever stored by it). -/
inductive EstadoTarea where
  | pendiente
  | enProgreso
  | completada
  | retrasada
  | cancelada
  deriving DecidableEq, Repr

/-- A row of the `programaciones` table (the columns the lifecycle
operations read or write). -/
structure Programacion where
  id : String
  semana : Nat
  anio : Nat
  estado : EstadoProgramacion
  aprobadaPor : Option String
  deriving DecidableEq, Repr

/-- A row of the template `tareas` table (the columns
`registrar_ejecucion_real` reads). -/
structure Tarea where
  id : String
  duracion : Int
  deriving DecidableEq, Repr

/-- A row of the `tareas_planificadas` table (the columns the execution
recorder reads). -/
structure TareaPlanificada where
  id : Nat
  programacionId : String
  tareaId : String
  duracionPlanificada : Int
  deriving DecidableEq, Repr

/-- A row of the `ejecucion_real` table (the columns
`registrar_ejecucion_real` writes). -/
structure EjecucionReal where
  id : Nat
  tareaPlanificadaId : Nat
  inicioReal : Int
  finReal : Int
  duracionReal : Int
  estado : EstadoTarea
  desviacionDuracion : Int
  tiempoParadas : Int
  deriving DecidableEq, Repr

/-- The database, as an explicit value: one list per table plus the
autoincrement counter of `ejecucion_real`. -/
structure DBState where
  programaciones : List Programacion
  tareas : List Tarea
  tareasPlanificadas : List TareaPlanificada
  ejecuciones : List EjecucionReal
  nextEjecucionId : Nat
  deriving DecidableEq, Repr

/-- `aprobar_programacion` (database.py lines 310-331): look the row up
by id; if present set `estado = PLANIFICADA` and `aprobada_por`
unconditionally and return `True`, else return `False`.  The function
performs no check of the current `estado` and no per-week uniqueness
check. -/
def aprobar_programacion (s : DBState) (progId aprobadaPor : String) :
    Bool × DBState :=
  match s.programaciones.find? (fun p => p.id == progId) with
  | some _ =>
      (true,
       { s with programaciones := s.programaciones.map (fun p =>
           if p.id == progId then
             { p with estado := .planificada, aprobadaPor := some aprobadaPor }
           else p) })
  | none => (false, s)

/-- The transition table of `cambiar_estado_programacion`
(database.py lines 363-369). -/
def transicionesValidas (e : EstadoProgramacion) : List EstadoProgramacion :=
  match e with
  | .simulacion => [.planificada, .cancelada]
  | .planificada => [.enEjecucion, .cancelada]
  | .enEjecucion => [.completada]
  | .completada => []
  | .cancelada => []

/-- `cambiar_estado_programacion` (database.py lines 334-397): validate
the transition against `transicionesValidas`, reject with a message and
no state change otherwise, else write the new estado (recording the
approver when moving to `planificada`).  The automatic KPI computation
triggered on `COMPLETADA` only writes the metrics cache and never
reverts the estado, so it is elided here.  Message texts keep the
source's wording without the emoji prefixes, and the interpolated ids
are elided (no claim concerns the message text beyond being a nonempty
description). -/
def cambiar_estado_programacion (s : DBState) (progId : String)
    (nuevoEstado : EstadoProgramacion) (usuario : Option String) :
    (Bool × String) × DBState :=
  match s.programaciones.find? (fun p => p.id == progId) with
  | none => ((false, "Programacion no encontrada"), s)
  | some prog =>
      if nuevoEstado ∈ transicionesValidas prog.estado then
        ((true, "Estado actualizado"),
         { s with programaciones := s.programaciones.map (fun p =>
             if p.id == progId then
               let aprobada :=
                 if nuevoEstado = .planificada ∧ usuario.isSome then usuario
                 else p.aprobadaPor
               { p with estado := nuevoEstado, aprobadaPor := aprobada }
             else p) })
      else if transicionesValidas prog.estado = [] then
        ((false, "No se puede cambiar el estado de una programacion terminal"), s)
      else
        ((false, "Transicion invalida"), s)

/-- `eliminar_programacion` (database.py lines 400-429): without
`forzar`, rows in `PLANIFICADA`, `EN_EJECUCION` or `COMPLETADA` are
protected; with `forzar = True` the row is deleted whatever its estado.
Deletion cascades to the programacion's planned tasks and their real
executions (the `cascade="all, delete-orphan"` relationships in
`database_models.py`). -/
def eliminar_programacion (s : DBState) (progId : String) (forzar : Bool) :
    (Bool × String) × DBState :=
  match s.programaciones.find? (fun p => p.id == progId) with
  | none => ((false, "Programacion no encontrada"), s)
  | some prog =>
      if !forzar ∧ prog.estado ∈
          [EstadoProgramacion.planificada, .enEjecucion, .completada] then
        ((false, "No se puede eliminar programacion con este estado"), s)
      else
        let idsTareas := (s.tareasPlanificadas.filter
          (fun t => t.programacionId == progId)).map (·.id)
        ((true, "Programacion eliminada exitosamente"),
         { s with
           programaciones := s.programaciones.filter (fun p => !(p.id == progId)),
           tareasPlanificadas := s.tareasPlanificadas.filter
             (fun t => !(t.programacionId == progId)),
           ejecuciones := s.ejecuciones.filter
             (fun e => !(idsTareas.contains e.tareaPlanificadaId)) })

/-- `tarea_id_base = tarea_id.split('.')[0] if '.' in tarea_id else tarea_id`
(database.py line 911): the prefix of the id before the first dot, or
the whole id when it has no dot. -/
def tareaIdBase (tareaId : String) : String :=
  String.mk (tareaId.data.takeWhile (fun c => c != '.'))

/-- `registrar_ejecucion_real` (database.py lines 877-943): raise
(modelled as `Except.error`) only when the planned task id is unknown;
otherwise compute the real duration, the deviation against the template
task's original duration (falling back to the planned duration when the
template row is missing), derive the estado, append the new row and
return its id.  No duplicate-execution check and no check of the owning
programacion's estado is performed. -/
def registrar_ejecucion_real (s : DBState) (tareaPlanificadaId : Nat)
    (inicioReal finReal : Int) (tiempoParadas : Int) :
    Except String (Nat × DBState) :=
  match s.tareasPlanificadas.find? (fun t => t.id == tareaPlanificadaId) with
  | none => .error "Tarea planificada no encontrada"
  | some tareaPlan =>
      let duracionReal := finReal - inicioReal
      let idBase := tareaIdBase tareaPlan.tareaId
      let duracionOriginal :=
        match s.tareas.find? (fun t => t.id == idBase) with
        | some t => t.duracion
        | none => tareaPlan.duracionPlanificada
      let durRealSinSetup := max 0 (duracionReal - tiempoParadas)
      let desviacionDuracion := durRealSinSetup - duracionOriginal
      let estado : EstadoTarea :=
        if desviacionDuracion > 30 then .retrasada else .completada
      let nueva : EjecucionReal :=
        { id := s.nextEjecucionId
          tareaPlanificadaId := tareaPlanificadaId
          inicioReal := inicioReal
          finReal := finReal
          duracionReal := duracionReal
          estado := estado
          desviacionDuracion := desviacionDuracion
          tiempoParadas := tiempoParadas }
      .ok (s.nextEjecucionId,
        { s with ejecuciones := s.ejecuciones ++ [nueva],
                 nextEjecucionId := s.nextEjecucionId + 1 })

/-- The spec's set of "active" estados for the per-week uniqueness
invariant: `{planificada, en_ejecucion, completada}`. -/
def estadoActivo (e : EstadoProgramacion) : Bool :=
  match e with
  | .planificada => true
  | .enEjecucion => true
  | .completada => true
  | _ => false

/-- The programaciones of a `(anio, semana)` pair that are in an active
estado (used to state the uniqueness invariant). -/
def activasSemana (s : DBState) (anio semana : Nat) : List Programacion :=
  s.programaciones.filter
    (fun p => p.anio == anio && p.semana == semana && estadoActivo p.estado)

/-- Position of an estado along the lifecycle
`simulacion → planificada → en_ejecucion → completada`, with `cancelada`
as a second terminal endpoint.  Every transition the code accepts
strictly increases this rank. -/
def rangoEstado (e : EstadoProgramacion) : Nat :=
  match e with
  | .simulacion => 0
  | .planificada => 1
  | .enEjecucion => 2
  | .completada => 3
  | .cancelada => 4

/-! ## Calendar mapper: `dividir_tarea_en_partes`

`src/utils/db_helpers.py` defines `dividir_tarea_en_partes` twice (lines
40-93 and lines 644-688); at module load the second definition shadows
the first, so the embedding below is the second one.  Flat minutes are
nonnegative (the solver's variables range over `[0, horizon]`), so they
are modelled as `Nat`; Python floor division on nonnegative ints is `Nat`
division.  Python raises `ZeroDivisionError` when `minutos_por_dia = 0`;
the loop guard below additionally requires `0 < minutosPorDia`, which
only changes behaviour where the Python code raises. -/

/-- One emitted part (the dict pushed by `dividir_tarea_en_partes`). -/
structure Parte where
  inicio : Nat
  fin : Nat
  duracion : Nat
  esDividida : Bool
  parteNumero : Nat
  deriving DecidableEq, Repr

/-- The `while tiempo_actual < fin_min` loop of the splitting branch
(db_helpers.py lines 669-686). -/
def dividirPartesLoop (minutosPorDia finMin : Nat) (tiempoActual parteNumero : Nat) :
    List Parte :=
  if h : tiempoActual < finMin ∧ 0 < minutosPorDia then
    let diaActual := tiempoActual / minutosPorDia
    let finDiaActual := (diaActual + 1) * minutosPorDia
    let finParte := min finDiaActual finMin
    { inicio := tiempoActual, fin := finParte, duracion := finParte - tiempoActual,
      esDividida := true, parteNumero := parteNumero } ::
      dividirPartesLoop minutosPorDia finMin finParte (parteNumero + 1)
  else []
termination_by finMin - tiempoActual
decreasing_by
  have hlt : tiempoActual < (tiempoActual / minutosPorDia + 1) * minutosPorDia := by
    have h2 := Nat.lt_div_mul_add (a := tiempoActual) h.2
    calc tiempoActual
        < tiempoActual / minutosPorDia * minutosPorDia + minutosPorDia := h2
      _ = (tiempoActual / minutosPorDia + 1) * minutosPorDia := by ring
  have hmin : tiempoActual < min ((tiempoActual / minutosPorDia + 1) * minutosPorDia) finMin :=
    lt_min hlt h.1
  omega

/-- `dividir_tarea_en_partes` (db_helpers.py lines 644-688): a task whose
start and end fall in the same labor day is returned whole and unmarked;
otherwise the day-crossing loop emits one marked part per touched day. -/
def dividir_tarea_en_partes (inicioMin finMin minutosPorDia : Nat) : List Parte :=
  let diaInicio := inicioMin / minutosPorDia
  let diaFin := finMin / minutosPorDia
  if diaInicio = diaFin then
    [{ inicio := inicioMin, fin := finMin, duracion := finMin - inicioMin,
       esDividida := false, parteNumero := 1 }]
  else
    dividirPartesLoop minutosPorDia finMin inicioMin 1

/-! ## Calendar mapper: flat minutes to clock times

`minutos_a_hora_dia` (app_semanal.py lines 39-110).  The function first
normalizes its inputs from Streamlit session state: `hora_inicio`
defaults to 08:00 and `hora_fin` to 18:00, both already parsed to `time`
values; the embedding takes the normalized times as arguments.  A `time`
value is a pair (hour, minute). -/

/-- A clock time of day, as Python `datetime.time(hora, minuto)`. -/
structure HoraDia where
  hora : Nat
  minuto : Nat
  deriving DecidableEq, Repr

/-- A clock time in minutes since midnight (`hour * 60 + minute`, as the
source computes for its comparisons). -/
def minutosDe (t : HoraDia) : Nat := t.hora * 60 + t.minuto

/-- Core of `minutos_a_hora_dia` (app_semanal.py lines 83-110). -/
def minutos_a_hora_dia (minutosAcumulativos minutosPorDia : Nat)
    (horaInicio horaFin : HoraDia) : HoraDia :=
  let minutosDelDia := minutosAcumulativos % minutosPorDia
  if minutosDelDia = 0 ∧ 0 < minutosAcumulativos then horaInicio
  else
    let horasAgregadas := minutosDelDia / 60
    let minutosAgregados := minutosDelDia % 60
    let horaInt := horaInicio.hora + horasAgregadas
    let minutoInt := horaInicio.minuto + minutosAgregados
    let horaInt2 := if minutoInt ≥ 60 then horaInt + 1 else horaInt
    let minutoInt2 := if minutoInt ≥ 60 then minutoInt - 60 else minutoInt
    let horaCalculadaMinutos := horaInt2 * 60 + minutoInt2
    if horaCalculadaMinutos ≥ minutosDe horaFin then horaFin
    else if horaCalculadaMinutos < minutosDe horaInicio then horaInicio
    else { hora := horaInt2, minuto := minutoInt2 }

/-- The `fin_hora` actually emitted for a part ending at `finParte` flat
minutes: the special case at app_semanal.py lines 155-164 (and the
identical one at lines 273-279) returns the literal `time(18, 0)` when
`fin_parte > 0 and fin_parte % minutos_por_dia == 0`, and otherwise
falls through to `minutos_a_hora_dia`. -/
def finHoraParte (finParte minutosPorDia : Nat) (horaInicio horaFin : HoraDia) :
    HoraDia :=
  if 0 < finParte ∧ finParte % minutosPorDia = 0 then { hora := 18, minuto := 0 }
  else minutos_a_hora_dia finParte minutosPorDia horaInicio horaFin

/-! ## KPI calculator (`src/utils/kpi_calculator.py`, class `KPIExporter`)

An execution record is one dict of the `ejecuciones` list.  A field read
with `.get(key)` is an `Option`; HH:MM strings are represented by their
parsed `HoraDia` value, with `none` standing for an absent, empty or
unparseable string (the source's `try / except` around
`map(int, s.split(':'))` and its truthiness tests); `datetime` values
are minute counts.  Percentages computed with float division are
modelled as exact rationals. -/

/-- One execution record joined with its planned task, with the fields
the KPI calculator reads. -/
structure EjecucionKPI where
  duracionPlanificada : Option Int
  duracionReal : Option Int
  tiempoParadas : Option Int
  problemasEncontrados : Option String
  maquinaUsada : Option String
  maquinaPlanificada : Option String
  inicioHora : Option HoraDia
  finHora : Option HoraDia
  diaSemana : Option Int
  inicioReal : Option Int
  finReal : Option Int
  deriving DecidableEq, Repr

/-- The `KPIExporter.__init__` configuration. -/
structure KPIConfig where
  diasLaborales : Nat
  minutosPorDia : Nat
  numMaquinas : Nat
  deriving DecidableEq, Repr

/-- `KPIExporter.calcular_oee` (kpi_calculator.py lines 73-86). -/
def calcular_oee (disponibilidad rendimiento calidad : Rat) : Rat :=
  disponibilidad * rendimiento * calidad / 10000

/-- Proleptic-Gregorian ordinal of January 4 of a year, as Python's
`datetime(anio, 1, 4).toordinal()` (used through `.weekday()`). -/
def ordinalEnero4 (anio : Int) : Int :=
  365 * (anio - 1) + (anio - 1) / 4 - (anio - 1) / 100 + (anio - 1) / 400 + 4

/-- Ordinal of the Monday of ISO-style week 1, as computed at
kpi_calculator.py lines 233-234: `fecha_semana_1 -
timedelta(days=fecha_semana_1.weekday())`, with `weekday = (ordinal - 1) % 7`
in the proleptic Gregorian calendar (day 1 is a Monday). -/
def lunesSemana1 (anio : Int) : Int :=
  ordinalEnero4 anio - (ordinalEnero4 anio - 1) % 7

/-- `KPIExporter._construir_datetime_planificado` (lines 199-248),
returning the datetime as total minutes: Monday of week 1, plus
`7 * (semana - 1)` days, plus `dia_semana` days, combined with the
parsed HH:MM clock time. -/
def construirDatetimePlanificado (hora : HoraDia) (diaSemana semana anio : Int) :
    Int :=
  (lunesSemana1 anio + 7 * (semana - 1) + diaSemana) * 1440 +
    (hora.hora : Int) * 60 + (hora.minuto : Int)

/-- Sum of the values of an optional field over the records that carry
it (`sum(e.get(k, 0) for e in ejecuciones if e.get(k) is not None)`). -/
def sumaCampo (f : EjecucionKPI → Option Int) (ejecuciones : List EjecucionKPI) :
    Int :=
  (ejecuciones.filterMap f).sum

/-- `KPIExporter._calcular_disponibilidad` (lines 494-539). -/
def calcularDisponibilidad (ejecuciones : List EjecucionKPI) : Rat :=
  if ejecuciones = [] then 0
  else
    let tiempoPlanificadoTotal := sumaCampo (·.duracionPlanificada) ejecuciones
    let tiempoParadasTotal := sumaCampo (·.tiempoParadas) ejecuciones
    let tiempoProduccionReal := max 0 (tiempoPlanificadoTotal - tiempoParadasTotal)
    if 0 < tiempoPlanificadoTotal then
      min 100 (max 0 ((tiempoProduccionReal : Rat) / (tiempoPlanificadoTotal : Rat) * 100))
    else 100

/-- The planned-total-duration contribution of one record on the
clock-time path of `_calcular_rendimiento` (lines 571-591): present when
`inicio_hora`, `fin_hora` and `dia_semana` all carry data, in which case
it is the difference of the two reconstructed datetimes in minutes. -/
def durPlanTotalHoras (semana anio : Int) (e : EjecucionKPI) : Option Int :=
  match e.inicioHora, e.finHora, e.diaSemana with
  | some h1, some h2, some d =>
      some (construirDatetimePlanificado h2 d semana anio -
            construirDatetimePlanificado h1 d semana anio)
  | _, _, _ => none

/-- `KPIExporter._calcular_rendimiento` (lines 541-606).  `semana` and
`anio` are the optional keyword arguments; the Python truthiness test
`if semana_produccion and anio` is false for `None` and for `0`. -/
def calcularRendimiento (ejecuciones : List EjecucionKPI)
    (semana anio : Option Int) : Rat :=
  if ejecuciones = [] then 0
  else
    let tiempoRealTotal := sumaCampo (·.duracionReal) ejecuciones
    let horasTotal : Int :=
      match semana, anio with
      | some s, some a =>
          if s ≠ 0 ∧ a ≠ 0 then (ejecuciones.filterMap (durPlanTotalHoras s a)).sum
          else 0
      | _, _ => 0
    let tiempoPlanificadoTotal :=
      if horasTotal = 0 then sumaCampo (·.duracionPlanificada) ejecuciones
      else horasTotal
    if 0 < tiempoRealTotal then
      (tiempoPlanificadoTotal : Rat) / (tiempoRealTotal : Rat) * 100
    else 100

/-- `KPIExporter._calcular_calidad` (lines 608-634): a record counts as
problem-free when `problemas_encontrados` is absent, empty or
whitespace-only. -/
def sinProblemas (e : EjecucionKPI) : Bool :=
  match e.problemasEncontrados with
  | none => true
  | some s => s.trim = ""

/-- `KPIExporter._calcular_calidad` (lines 608-634). -/
def calcularCalidad (ejecuciones : List EjecucionKPI) : Rat :=
  if ejecuciones = [] then 0
  else
    ((ejecuciones.countP sinProblemas : Rat) / (ejecuciones.length : Rat)) * 100

/-- The per-record deviation computed inside
`calcular_cumplimiento_plazos` (lines 289-375): the clock-time path
first, then the stored-durations fallback, then `0`. -/
def desvCumplimiento (semana anio : Option Int) (e : EjecucionKPI) : Rat :=
  let tiempoParadas := e.tiempoParadas.getD 0
  let horasDesv : Option Int :=
    match semana, anio with
    | some s, some a =>
        if s ≠ 0 ∧ a ≠ 0 then
          match e.inicioHora, e.finHora, e.diaSemana with
          | some h1, some h2, some d =>
              let durPlanTotal := construirDatetimePlanificado h2 d s a -
                construirDatetimePlanificado h1 d s a
              let durRealTotal : Option Int :=
                match e.duracionReal with
                | some v => some v
                | none =>
                    match e.inicioReal, e.finReal with
                    | some ir, some fr => some (fr - ir)
                    | _, _ => none
              match durRealTotal with
              | some drt => some (max 0 (drt - tiempoParadas) - durPlanTotal)
              | none => none
          | _, _, _ => none
        else none
    | _, _ => none
  match horasDesv with
  | some v => (v : Rat)
  | none =>
      match e.duracionPlanificada, e.duracionReal with
      | some dp, some dr => ((max 0 (dr - tiempoParadas) - dp : Int) : Rat)
      | _, _ => 0

/-- Whether one record is classified "a tiempo"
(`desv == 0 or abs(desv) <= tolerancia`, line 377). -/
def aTiempo (tolerancia : Rat) (semana anio : Option Int) (e : EjecucionKPI) :
    Bool :=
  let desv := desvCumplimiento semana anio e
  desv = 0 ∨ |desv| ≤ tolerancia

/-- `KPIExporter.calcular_cumplimiento_plazos` (lines 250-391), reduced
to the OTIF percentage (`a_tiempo / total * 100`, `0` for an empty
list). -/
def calcularOtif (ejecuciones : List EjecucionKPI) (tolerancia : Rat)
    (semana anio : Option Int) : Rat :=
  if ejecuciones = [] then 0
  else
    ((ejecuciones.countP (aTiempo tolerancia semana anio) : Rat) /
      (ejecuciones.length : Rat)) * 100

/-- The machine a record is accumulated under in
`calcular_eficiencia_machines` (line 436): `maquina_usada or
maquina_planificada`, skipping records where both are falsy. -/
def maquinaDe (e : EjecucionKPI) : Option String :=
  match e.maquinaUsada with
  | some m => if m = "" then noVacia e.maquinaPlanificada else some m
  | none => noVacia e.maquinaPlanificada
where
  noVacia : Option String → Option String
    | some s => if s = "" then none else some s
    | none => none

/-- `utilizacion_total` of one machine in
`KPIExporter.calcular_eficiencia_machines` (lines 456-492):
`(tiempo_productivo + tiempo_setup) / (dias_laborales * minutos_por_dia)
* 100`, where productive time sums `duracion_real` and setup sums
`tiempo_paradas` over the records of that machine, and the quotient is
`0.0` when the configured capacity is zero. -/
def utilizacionTotal (cfg : KPIConfig) (ejecuciones : List EjecucionKPI)
    (maq : String) : Rat :=
  let deMaq := ejecuciones.filter (fun e => maquinaDe e = some maq)
  let tiempoProductivo := (deMaq.map (fun e => e.duracionReal.getD 0)).sum
  let tiempoSetup := (deMaq.map (fun e => e.tiempoParadas.getD 0)).sum
  let tiempoDisponible : Int := (cfg.diasLaborales * cfg.minutosPorDia : Nat)
  if 0 < tiempoDisponible then
    ((tiempoProductivo + tiempoSetup : Int) : Rat) / (tiempoDisponible : Rat) * 100
  else 0

/-! ## Scheduling engine objectives on single-machine inputs

`OptimizadorProduccion.crear_modelo` (optimizador_produccion.py lines
101-456), specialized to inputs whose rows all name one and the same
fixed machine.  On such inputs every `machine_assignment[i]` is the
compile-time constant `0`, every pair of tasks satisfies
`ambas_misma_fija`, so `same_machine ≡ 1` and the no-overlap constraints
reduce to the disjunction `end_i ≤ start_j ∨ end_j ≤ start_i` for every
`i < j`.  All CP-SAT variables are nonnegative integers (`Nat`).
Operator and precedence constraints mention neither the objective
variables nor the machine variables, so they are abstracted into an
arbitrary predicate `extra` on the start vector; every theorem below is
quantified over it.

Each objective branch (lines 329-437) adds auxiliary variables and a
linear objective on top of the same core constraints.  A model is
represented by its feasible set of (core, auxiliary) assignments plus
the minimized expression, and "the optimal schedules" of a model are the
start vectors that appear in some feasible assignment of minimal
objective value. -/

/-- One row of the tasks DataFrame (the two numeric columns the model
reads: `duracion` and `tiempo_setup`). -/
structure TareaOpt where
  duracion : Nat
  tiempoSetup : Nat
  deriving DecidableEq, Repr

/-- `duracion_total = duracion + tiempo_setup` (line 209). -/
def longitudTotal (t : TareaOpt) : Nat := t.duracion + t.tiempoSetup

/-- The interval `[start_i, end_i)` of each task under a start vector,
using the duration constraint `end_i = start_i + duracion_total`
(line 211). -/
def intervalos (tareas : List TareaOpt) (starts : List Nat) : List (Nat × Nat) :=
  List.zipWith (fun s t => (s, s + longitudTotal t)) starts tareas

/-- Core feasibility on a single machine: variable domains
`[0, horizon]`, the duration equations (folded into `intervalos`),
pairwise machine no-overlap, and the abstracted operator/precedence
constraints `extra`. -/
def coreFactible (tareas : List TareaOpt) (horizon : Nat)
    (extra : List Nat → Prop) (starts : List Nat) : Prop :=
  starts.length = tareas.length ∧
  (∀ p ∈ intervalos tareas starts, p.2 ≤ horizon) ∧
  List.Pairwise (fun p q => p.2 ≤ q.1 ∨ q.2 ≤ p.1) (intervalos tareas starts) ∧
  extra starts

/-- `max_i end_i` of a start vector (`0` when there are no tasks). -/
def maxFin (tareas : List TareaOpt) (starts : List Nat) : Nat :=
  ((intervalos tareas starts).map (·.2)).foldr max 0

/-- Feasible assignments of the `"Minimizar tiempo total"` model
(lines 329-334): the core plus the makespan variable constrained by
`makespan >= end_i` within `[0, horizon]`; the objective is `makespan`. -/
def makespanFactible (tareas : List TareaOpt) (horizon : Nat)
    (extra : List Nat → Prop) (starts : List Nat) (m : Nat) : Prop :=
  coreFactible tareas horizon extra starts ∧
  (∀ p ∈ intervalos tareas starts, p.2 ≤ m) ∧ m ≤ horizon

/-- Optimal start vectors of the `"Minimizar tiempo total"` model. -/
def optMakespan (tareas : List TareaOpt) (horizon : Nat)
    (extra : List Nat → Prop) : Set (List Nat) :=
  { starts | ∃ m, makespanFactible tareas horizon extra starts m ∧
      ∀ starts' m', makespanFactible tareas horizon extra starts' m' → m ≤ m' }

/-- Optimal start vectors of the `"Maximizar utilización"` model on a
single-machine input: `num_maquinas = 1`, so the branch at lines 336-374
creates only the makespan variable and runs `Minimize(makespan)` — the
same model as `"Minimizar tiempo total"`. -/
def optUtilizacion (tareas : List TareaOpt) (horizon : Nat)
    (extra : List Nat → Prop) : Set (List Nat) :=
  { starts | ∃ m, makespanFactible tareas horizon extra starts m ∧
      ∀ starts' m', makespanFactible tareas horizon extra starts' m' → m ≤ m' }

/-- Feasible assignments of the `"Minimizar costos"` model on a
single-machine input (lines 376-398): the unminimized makespan variable,
plus one occupancy variable for the unique machine (constrained by
`tiempo_ocupacion >= end_i` over all tasks, domain `[0, horizon]`);
`tiempo_total_ocupacion` equals the one-element sum and is the
objective. -/
def costosFactible (tareas : List TareaOpt) (horizon : Nat)
    (extra : List Nat → Prop) (starts : List Nat) (m t : Nat) : Prop :=
  coreFactible tareas horizon extra starts ∧
  (∀ p ∈ intervalos tareas starts, p.2 ≤ m) ∧ m ≤ horizon ∧
  (∀ p ∈ intervalos tareas starts, p.2 ≤ t) ∧ t ≤ horizon

/-- Optimal start vectors of the `"Minimizar costos"` model on a
single-machine input with at least one task (so the occupancy list is
nonempty and the branch minimizes `tiempo_total_ocupacion`). -/
def optCostos (tareas : List TareaOpt) (horizon : Nat)
    (extra : List Nat → Prop) : Set (List Nat) :=
  { starts | ∃ m t, costosFactible tareas horizon extra starts m t ∧
      ∀ starts' m' t', costosFactible tareas horizon extra starts' m' t' → t ≤ t' }

/-- `tiempo_trabajo_maquina = sum(duracion)` over the machine's tasks
(line 412) — durations only, without setup. -/
def trabajoTotal (tareas : List TareaOpt) : Nat :=
  (tareas.map (·.duracion)).sum

/-- Feasible assignments of the `"Balanceado"` model on a single-machine
input with more than one task (lines 400-426): makespan, the machine's
total-time variable `tt` (constrained by `tt >= end_i`, domain
`[0, horizon]`), its idle time `idle` with
`idle == tt - tiempo_trabajo` and domain `[0, horizon]`, the sum
`tot == idle` with domain `[0, horizon * n]`, and the objective
`obj == makespan * 7 + tot * 3` with domain `[0, horizon * 1000]`. -/
def balanceadoFactible (tareas : List TareaOpt) (horizon : Nat)
    (extra : List Nat → Prop) (starts : List Nat)
    (m tt idle tot obj : Nat) : Prop :=
  coreFactible tareas horizon extra starts ∧
  (∀ p ∈ intervalos tareas starts, p.2 ≤ m) ∧ m ≤ horizon ∧
  (∀ p ∈ intervalos tareas starts, p.2 ≤ tt) ∧ tt ≤ horizon ∧
  tt = trabajoTotal tareas + idle ∧ idle ≤ horizon ∧
  tot = idle ∧ tot ≤ horizon * tareas.length ∧
  obj = 7 * m + 3 * tot ∧ obj ≤ horizon * 1000

/-- Optimal start vectors of the `"Balanceado"` model on a
single-machine input: with at most one task the `len(tareas_maquina) > 1`
test fails and the branch falls back to `Minimize(makespan)`; otherwise
it minimizes the blended objective. -/
def optBalanceado (tareas : List TareaOpt) (horizon : Nat)
    (extra : List Nat → Prop) : Set (List Nat) :=
  if 1 < tareas.length then
    { starts | ∃ m tt idle tot obj,
        balanceadoFactible tareas horizon extra starts m tt idle tot obj ∧
        ∀ starts' m' tt' idle' tot' obj',
          balanceadoFactible tareas horizon extra starts' m' tt' idle' tot' obj' →
          obj ≤ obj' }
  else
    { starts | ∃ m, makespanFactible tareas horizon extra starts m ∧
        ∀ starts' m', makespanFactible tareas horizon extra starts' m' → m ≤ m' }

/-! ## Lemmas about the splitting loop -/

theorem dividirPartesLoop_nil (minutosPorDia finMin tiempoActual parteNumero : Nat)
    (h : ¬(tiempoActual < finMin ∧ 0 < minutosPorDia)) :
    dividirPartesLoop minutosPorDia finMin tiempoActual parteNumero = [] := by
  rw [dividirPartesLoop]
  simp [h]

theorem dividirPartesLoop_head_inicio (minutosPorDia finMin tiempoActual parteNumero : Nat)
    (p : Parte)
    (h : (dividirPartesLoop minutosPorDia finMin tiempoActual parteNumero).head? = some p) :
    p.inicio = tiempoActual := by
  rw [dividirPartesLoop] at h
  by_cases hc : tiempoActual < finMin ∧ 0 < minutosPorDia
  · simp [hc] at h
    simp [← h]
  · simp [hc] at h

theorem dividirPartesLoop_sum (minutosPorDia finMin tiempoActual parteNumero : Nat)
    (hm : 0 < minutosPorDia) (hle : tiempoActual ≤ finMin) :
    ((dividirPartesLoop minutosPorDia finMin tiempoActual parteNumero).map
      (·.duracion)).sum = finMin - tiempoActual := by
  induction tiempoActual, parteNumero using
      dividirPartesLoop.induct minutosPorDia finMin with
  | case1 tiempoActual parteNumero hc diaActual finDiaActual finParte ih =>
      rw [dividirPartesLoop, dif_pos hc]
      simp only [List.map_cons, List.sum_cons]
      have hlt : tiempoActual < finParte := by
        have h3 : tiempoActual < finDiaActual := by
          show tiempoActual < (tiempoActual / minutosPorDia + 1) * minutosPorDia
          have h2 := Nat.lt_div_mul_add (a := tiempoActual) hc.2
          calc tiempoActual
              < tiempoActual / minutosPorDia * minutosPorDia + minutosPorDia := h2
            _ = (tiempoActual / minutosPorDia + 1) * minutosPorDia := by ring
        exact lt_min h3 hc.1
      have hfin : finParte ≤ finMin := min_le_right _ _
      rw [ih hfin]
      show finParte - tiempoActual + (finMin - finParte) = finMin - tiempoActual
      omega
  | case2 tiempoActual parteNumero hc =>
      rw [dividirPartesLoop_nil _ _ _ _ hc]
      simp
      omega

theorem dividirPartesLoop_chain (minutosPorDia finMin tiempoActual parteNumero : Nat) :
    List.Chain' (fun a b => a.fin = b.inicio)
      (dividirPartesLoop minutosPorDia finMin tiempoActual parteNumero) := by
  induction tiempoActual, parteNumero using
      dividirPartesLoop.induct minutosPorDia finMin with
  | case1 tiempoActual parteNumero hc diaActual finDiaActual finParte ih =>
      rw [dividirPartesLoop, dif_pos hc]
      rw [List.chain'_cons']
      refine ⟨?_, ih⟩
      intro b hb
      exact (dividirPartesLoop_head_inicio _ _ _ _ b hb).symm
  | case2 tiempoActual parteNumero hc =>
      rw [dividirPartesLoop_nil _ _ _ _ hc]
      exact List.chain'_nil

theorem dividirPartesLoop_ventana (minutosPorDia finMin tiempoActual parteNumero : Nat) :
    ∀ p ∈ dividirPartesLoop minutosPorDia finMin tiempoActual parteNumero,
      ∃ d, d * minutosPorDia ≤ p.inicio ∧ p.fin ≤ (d + 1) * minutosPorDia := by
  induction tiempoActual, parteNumero using
      dividirPartesLoop.induct minutosPorDia finMin with
  | case1 tiempoActual parteNumero hc diaActual finDiaActual finParte ih =>
      rw [dividirPartesLoop, dif_pos hc]
      simp only [List.mem_cons]
      rintro p (rfl | hp)
      · refine ⟨tiempoActual / minutosPorDia, ?_, ?_⟩
        · exact Nat.div_mul_le_self _ _
        · exact min_le_left _ _
      · exact ih p hp
  | case2 tiempoActual parteNumero hc =>
      rw [dividirPartesLoop_nil _ _ _ _ hc]
      simp

theorem dividirPartesLoop_numeros (minutosPorDia finMin tiempoActual parteNumero : Nat) :
    (dividirPartesLoop minutosPorDia finMin tiempoActual parteNumero).map
        (·.parteNumero) =
      List.range' parteNumero
        (dividirPartesLoop minutosPorDia finMin tiempoActual parteNumero).length := by
  induction tiempoActual, parteNumero using
      dividirPartesLoop.induct minutosPorDia finMin with
  | case1 tiempoActual parteNumero hc diaActual finDiaActual finParte ih =>
      rw [dividirPartesLoop, dif_pos hc]
      simp only [List.map_cons, List.length_cons]
      rw [List.range'_succ]
      simp [ih]
  | case2 tiempoActual parteNumero hc =>
      rw [dividirPartesLoop_nil _ _ _ _ hc]
      simp

theorem dividirPartesLoop_dividida (minutosPorDia finMin tiempoActual parteNumero : Nat) :
    ∀ p ∈ dividirPartesLoop minutosPorDia finMin tiempoActual parteNumero,
      p.esDividida = true := by
  induction tiempoActual, parteNumero using
      dividirPartesLoop.induct minutosPorDia finMin with
  | case1 tiempoActual parteNumero hc diaActual finDiaActual finParte ih =>
      rw [dividirPartesLoop, dif_pos hc]
      simp only [List.mem_cons]
      rintro p (rfl | hp)
      · rfl
      · exact ih p hp
  | case2 tiempoActual parteNumero hc =>
      rw [dividirPartesLoop_nil _ _ _ _ hc]
      simp

/-- C6: for every solver assignment with `fin ≥ inicio` and positive
effective minutes per day, `dividir_tarea_en_partes` returns contiguous
parts (each part's `fin` is the next part's `inicio`), every part lies
inside one day window `[d·H, (d+1)·H]`, the `parte_numero`s count up
from 1, and the part durations sum to `fin − inicio` (which for a solver
assignment is the task's `duracion + setup`, by the duration
constraint). -/
theorem dividir_tarea_en_partes_correcta (inicioMin finMin minutosPorDia : Nat)
    (hm : 0 < minutosPorDia) (hle : inicioMin ≤ finMin) :
    List.Chain' (fun a b => a.fin = b.inicio)
        (dividir_tarea_en_partes inicioMin finMin minutosPorDia) ∧
    (∀ p ∈ dividir_tarea_en_partes inicioMin finMin minutosPorDia,
      ∃ d, d * minutosPorDia ≤ p.inicio ∧ p.fin ≤ (d + 1) * minutosPorDia) ∧
    (dividir_tarea_en_partes inicioMin finMin minutosPorDia).map (·.parteNumero) =
      List.range' 1 (dividir_tarea_en_partes inicioMin finMin minutosPorDia).length ∧
    ((dividir_tarea_en_partes inicioMin finMin minutosPorDia).map (·.duracion)).sum =
      finMin - inicioMin := by
  by_cases hdia : inicioMin / minutosPorDia = finMin / minutosPorDia
  · have hres : dividir_tarea_en_partes inicioMin finMin minutosPorDia =
        [{ inicio := inicioMin, fin := finMin, duracion := finMin - inicioMin,
           esDividida := false, parteNumero := 1 }] := by
      simp only [dividir_tarea_en_partes]
      rw [if_pos hdia]
    rw [hres]
    refine ⟨List.chain'_singleton _, ?_, by simp [List.range'], by simp⟩
    intro p hp
    simp only [List.mem_singleton] at hp
    subst hp
    refine ⟨inicioMin / minutosPorDia, Nat.div_mul_le_self _ _, ?_⟩
    show finMin ≤ (inicioMin / minutosPorDia + 1) * minutosPorDia
    have h2 := Nat.lt_div_mul_add (a := finMin) hm
    have h4 : finMin < (inicioMin / minutosPorDia + 1) * minutosPorDia := by
      calc finMin < finMin / minutosPorDia * minutosPorDia + minutosPorDia := h2
        _ = (finMin / minutosPorDia + 1) * minutosPorDia := by ring
        _ = (inicioMin / minutosPorDia + 1) * minutosPorDia := by rw [hdia]
    exact le_of_lt h4
  · have hres : dividir_tarea_en_partes inicioMin finMin minutosPorDia =
        dividirPartesLoop minutosPorDia finMin inicioMin 1 := by
      simp only [dividir_tarea_en_partes]
      rw [if_neg hdia]
    rw [hres]
    exact ⟨dividirPartesLoop_chain _ _ _ _, dividirPartesLoop_ventana _ _ _ _,
      dividirPartesLoop_numeros _ _ _ _, dividirPartesLoop_sum _ _ _ _ hm hle⟩

/-- Witness for C6 at a concrete three-part split: `inicio = 100`,
`fin = 1200`, `H = 540`. -/
theorem dividir_tarea_en_partes_correcta_witness :
    (0 < 540 ∧ 100 ≤ 1200) ∧
    (List.Chain' (fun a b => a.fin = b.inicio)
        (dividir_tarea_en_partes 100 1200 540) ∧
    (∀ p ∈ dividir_tarea_en_partes 100 1200 540,
      ∃ d, d * 540 ≤ p.inicio ∧ p.fin ≤ (d + 1) * 540) ∧
    (dividir_tarea_en_partes 100 1200 540).map (·.parteNumero) =
      List.range' 1 (dividir_tarea_en_partes 100 1200 540).length ∧
    ((dividir_tarea_en_partes 100 1200 540).map (·.duracion)).sum = 1200 - 100) :=
  ⟨⟨by decide, by decide⟩,
   dividir_tarea_en_partes_correcta 100 1200 540 (by decide) (by decide)⟩

/-- C10: an assignment that starts strictly inside day `k` and ends
exactly at the boundary `(k+1)·H` takes the splitting branch (its start
day `k` differs from `fin / H = k+1`) and yields a single part covering
the whole interval, marked `es_dividida = true` with
`parte_numero = 1`. -/
theorem dividir_frontera_una_parte (k inicioMin minutosPorDia : Nat)
    (hm : 0 < minutosPorDia) (h1 : k * minutosPorDia < inicioMin)
    (h2 : inicioMin < (k + 1) * minutosPorDia) :
    dividir_tarea_en_partes inicioMin ((k + 1) * minutosPorDia) minutosPorDia =
      [{ inicio := inicioMin, fin := (k + 1) * minutosPorDia,
         duracion := (k + 1) * minutosPorDia - inicioMin,
         esDividida := true, parteNumero := 1 }] := by
  have hdiaInicio : inicioMin / minutosPorDia = k :=
    Nat.div_eq_of_lt_le (le_of_lt h1) h2
  have hdiaFin : (k + 1) * minutosPorDia / minutosPorDia = k + 1 :=
    Nat.mul_div_cancel _ hm
  have hc : inicioMin < (k + 1) * minutosPorDia ∧ 0 < minutosPorDia := ⟨h2, hm⟩
  have hres : dividir_tarea_en_partes inicioMin ((k + 1) * minutosPorDia) minutosPorDia =
      dividirPartesLoop minutosPorDia ((k + 1) * minutosPorDia) inicioMin 1 := by
    simp only [dividir_tarea_en_partes]
    rw [if_neg (by rw [hdiaInicio, hdiaFin]; omega)]
  rw [hres, dividirPartesLoop, dif_pos hc]
  simp only [hdiaInicio, min_self]
  rw [dividirPartesLoop_nil _ _ _ _ (by simp)]

/-- Witness for C10 at `k = 0`, `inicio = 100`, `H = 540`. -/
theorem dividir_frontera_una_parte_witness :
    (0 < 540 ∧ 0 * 540 < 100 ∧ 100 < (0 + 1) * 540) ∧
    dividir_tarea_en_partes 100 ((0 + 1) * 540) 540 =
      [{ inicio := 100, fin := (0 + 1) * 540, duracion := (0 + 1) * 540 - 100,
         esDividida := true, parteNumero := 1 }] :=
  ⟨⟨by decide, by decide, by decide⟩,
   dividir_frontera_una_parte 0 100 540 (by decide) (by decide) (by decide)⟩

/-- C7 counterexample: the emitted `fin_hora` at an exact day boundary
is the hard-coded literal 18:00, not the configured shift end.  With
shift 08:00-17:00 and `H_day = 540` (a consistent nine-hour
configuration) a part ending at flat minute 540 is stamped 18:00 even
though the configured shift-end clock time is 17:00. -/
theorem finHoraParte_frontera_contraejemplo :
    finHoraParte 540 540 ⟨8, 0⟩ ⟨17, 0⟩ = ⟨18, 0⟩ ∧
    finHoraParte 540 540 ⟨8, 0⟩ ⟨17, 0⟩ ≠ ⟨17, 0⟩ := by
  constructor
  · rfl
  · decide

/-- C7 (amended): at an exact multiple of the effective minutes per day
the emitted `fin_hora` is the constant clock time 18:00 — the default
shift end, taken from neither the configured shift start nor shift end —
while `minutos_a_hora_dia` alone would have produced the shift-start
time of the next day. -/
theorem finHoraParte_frontera (finParte minutosPorDia : Nat)
    (horaInicio horaFin : HoraDia) (hpos : 0 < finParte)
    (hmod : finParte % minutosPorDia = 0) :
    finHoraParte finParte minutosPorDia horaInicio horaFin = ⟨18, 0⟩ ∧
    minutos_a_hora_dia finParte minutosPorDia horaInicio horaFin = horaInicio := by
  constructor
  · simp only [finHoraParte]
    rw [if_pos ⟨hpos, hmod⟩]
  · simp only [minutos_a_hora_dia]
    rw [hmod, if_pos ⟨rfl, hpos⟩]

/-- Witness for the amended C7 at `fin = 1080`, `H = 540`, configured
shift 08:00-17:00. -/
theorem finHoraParte_frontera_witness :
    (0 < 1080 ∧ 1080 % 540 = 0) ∧
    (finHoraParte 1080 540 ⟨8, 0⟩ ⟨17, 0⟩ = ⟨18, 0⟩ ∧
     minutos_a_hora_dia 1080 540 ⟨8, 0⟩ ⟨17, 0⟩ = ⟨8, 0⟩) :=
  ⟨⟨by decide, by decide⟩,
   finHoraParte_frontera 1080 540 ⟨8, 0⟩ ⟨17, 0⟩ (by decide) (by decide)⟩

/-! ## Lifecycle claims -/

/-- A database with an active (planificada) programacion and a second
simulacion for the same week 10 of 2025. -/
def estadoSemanaDoble : DBState :=
  { programaciones :=
      [{ id := "PROG-2025-W10-001", semana := 10, anio := 2025,
         estado := .planificada, aprobadaPor := none },
       { id := "PROG-2025-W10-002", semana := 10, anio := 2025,
         estado := .simulacion, aprobadaPor := none }],
    tareas := [], tareasPlanificadas := [], ejecuciones := [],
    nextEjecucionId := 1 }

/-- C1 counterexample: with `PROG-2025-W10-001` already `planificada`
for week 10 of 2025, approving the simulacion `PROG-2025-W10-002` for
the same week does not fail — it returns `True` — and afterwards two
programaciones of `(2025, 10)` are in an active estado, violating the
claimed uniqueness invariant. -/
theorem aprobar_ignora_unicidad_contraejemplo :
    (activasSemana estadoSemanaDoble 2025 10).length = 1 ∧
    (aprobar_programacion estadoSemanaDoble "PROG-2025-W10-002" "Usuario App").1
      = true ∧
    (activasSemana
      (aprobar_programacion estadoSemanaDoble "PROG-2025-W10-002" "Usuario App").2
      2025 10).length = 2 := by
  refine ⟨?_, ?_, ?_⟩ <;> rfl

/-- C1 (amended): neither `aprobar_programacion` nor
`cambiar_estado_programacion` performs any per-`(anio, semana)`
uniqueness check.  `aprobar_programacion` succeeds exactly when the
programacion id exists, and `cambiar_estado_programacion` succeeds
exactly when the target row exists and its own estado admits the
transition — in both cases independently of every other programacion,
so approving with another active programacion in the same week
succeeds rather than fails (the uniqueness gate exists only in the UI
layer, which disables the button). -/
theorem aprobar_sin_verificacion_unicidad :
    (∀ s progId usuario,
      (aprobar_programacion s progId usuario).1 = true ↔
        (s.programaciones.find? (fun p => p.id == progId)).isSome) ∧
    (∀ s progId nuevoEstado usuario,
      (cambiar_estado_programacion s progId nuevoEstado usuario).1.1 = true ↔
        ∃ p, s.programaciones.find? (fun q => q.id == progId) = some p ∧
          nuevoEstado ∈ transicionesValidas p.estado) := by
  constructor
  · intro s progId usuario
    unfold aprobar_programacion
    cases h : s.programaciones.find? (fun p => p.id == progId) <;> simp [h]
  · intro s progId nuevoEstado usuario
    unfold cambiar_estado_programacion
    split
    · next heq => simp [heq]
    · next prog heq =>
        rw [heq]
        split
        · next hmem =>
            constructor
            · intro _
              exact ⟨prog, rfl, hmem⟩
            · intro _
              rfl
        · next hmem =>
            have hno : ¬∃ q, some prog = some q ∧
                nuevoEstado ∈ transicionesValidas q.estado := by
              rintro ⟨q, hq, hqmem⟩
              injection hq with hq
              subst hq
              exact hmem hqmem
            split
            · exact ⟨fun htrue => absurd htrue (by simp),
                fun hex => absurd hex hno⟩
            · exact ⟨fun htrue => absurd htrue (by simp),
                fun hex => absurd hex hno⟩

/-- A database holding one completed programacion. -/
def estadoCompletada : DBState :=
  { programaciones :=
      [{ id := "PROG-2025-W11-001", semana := 11, anio := 2025,
         estado := .completada, aprobadaPor := some "Supervisor" }],
    tareas := [], tareasPlanificadas := [], ejecuciones := [],
    nextEjecucionId := 1 }

/-- C2 counterexample: `aprobar_programacion` is an exposed
state-changing operation, yet calling it on a `completada` (terminal)
programacion succeeds and rewrites the estado back to `planificada` —
the lifecycle moves backwards and a terminal estado changes. -/
theorem aprobar_retrocede_contraejemplo :
    (aprobar_programacion estadoCompletada "PROG-2025-W11-001" "Usuario").1
      = true ∧
    DBState.programaciones
        (aprobar_programacion estadoCompletada "PROG-2025-W11-001" "Usuario").2 =
      [{ id := "PROG-2025-W11-001", semana := 11, anio := 2025,
         estado := .planificada, aprobadaPor := some "Usuario" }] ∧
    rangoEstado .planificada < rangoEstado .completada := by
  refine ⟨?_, ?_, ?_⟩ <;> first | rfl | decide

/-- C2 (amended): `cambiar_estado_programacion` alone respects the
lifecycle: every transition it accepts strictly increases the lifecycle
rank (so the estado never moves backwards), the two terminal estados
admit no transition at all, success implies the target row's estado
admitted the move, and every rejection returns a nonempty descriptive
message and leaves the database unchanged.  `aprobar_programacion`, in
contrast, rewrites any existing programacion to `planificada`
unconditionally. -/
theorem cambiar_estado_respeta_ciclo :
    (∀ e nuevoEstado, nuevoEstado ∈ transicionesValidas e →
      rangoEstado e < rangoEstado nuevoEstado) ∧
    (∀ e, e = .completada ∨ e = .cancelada → transicionesValidas e = []) ∧
    (∀ s progId nuevoEstado usuario,
      ((cambiar_estado_programacion s progId nuevoEstado usuario).1.1 = true →
        ∃ p, s.programaciones.find? (fun q => q.id == progId) = some p ∧
          nuevoEstado ∈ transicionesValidas p.estado) ∧
      ((cambiar_estado_programacion s progId nuevoEstado usuario).1.1 = false →
        (cambiar_estado_programacion s progId nuevoEstado usuario).2 = s ∧
        (cambiar_estado_programacion s progId nuevoEstado usuario).1.2 ≠ "")) := by
  refine ⟨?_, ?_, ?_⟩
  · intro e nuevoEstado h
    cases e <;> simp [transicionesValidas] at h <;>
      rcases h with rfl | rfl <;> decide
  · intro e h
    rcases h with rfl | rfl <;> rfl
  · intro s progId nuevoEstado usuario
    unfold cambiar_estado_programacion
    split
    · next heq =>
        refine ⟨fun htrue => absurd htrue (by simp), fun _ => ⟨rfl, ?_⟩⟩
        show ("Programacion no encontrada" : String) ≠ ""
        decide
    · next prog heq =>
        split
        · next hmem =>
            exact ⟨fun _ => ⟨prog, heq, hmem⟩, fun hfail => by simp at hfail⟩
        · next hmem =>
            split
            · refine ⟨fun htrue => absurd htrue (by simp), fun _ => ⟨rfl, ?_⟩⟩
              show ("No se puede cambiar el estado de una programacion terminal" :
                String) ≠ ""
              decide
            · refine ⟨fun htrue => absurd htrue (by simp), fun _ => ⟨rfl, ?_⟩⟩
              show ("Transicion invalida" : String) ≠ ""
              decide

/-- Witness for the amended C2: the accepted transition
`simulacion → planificada` increases the rank, `completada` admits no
transition, and a rejected change (starting a completada programacion)
leaves the database untouched with a nonempty message. -/
theorem cambiar_estado_respeta_ciclo_witness :
    rangoEstado .simulacion < rangoEstado .planificada ∧
    transicionesValidas .completada = [] ∧
    ((cambiar_estado_programacion estadoCompletada "PROG-2025-W11-001"
        .enEjecucion none).2 = estadoCompletada ∧
     (cambiar_estado_programacion estadoCompletada "PROG-2025-W11-001"
        .enEjecucion none).1.2 ≠ "") :=
  ⟨cambiar_estado_respeta_ciclo.1 .simulacion .planificada (by decide),
   cambiar_estado_respeta_ciclo.2.1 .completada (Or.inl rfl),
   (cambiar_estado_respeta_ciclo.2.2 estadoCompletada "PROG-2025-W11-001"
      .enEjecucion none).2 (by rfl)⟩

/-- C3 counterexample: a `completada` programacion — which the claim
says is never deletable — is deleted successfully when the force flag
is passed. -/
theorem eliminar_completada_forzada_contraejemplo :
    (eliminar_programacion estadoCompletada "PROG-2025-W11-001" true).1.1
      = true ∧
    DBState.programaciones
      (eliminar_programacion estadoCompletada "PROG-2025-W11-001" true).2 = [] := by
  exact ⟨rfl, rfl⟩

/-- C3 (amended): without the force flag only `simulacion` and
`cancelada` programaciones may be deleted, and a rejected deletion
leaves the database unchanged; with `forzar = True`, however, deletion
succeeds for every estado — including `en_ejecucion` and `completada`
(the docstring: "Si True, elimina sin importar el estado"). -/
theorem eliminar_caracterizacion :
    ∀ s progId forzar,
      (((eliminar_programacion s progId forzar).1.1 = true) ↔
        ∃ p, s.programaciones.find? (fun q => q.id == progId) = some p ∧
          (forzar = true ∨ p.estado = .simulacion ∨ p.estado = .cancelada)) ∧
      ((eliminar_programacion s progId forzar).1.1 = false →
        (eliminar_programacion s progId forzar).2 = s) := by
  intro s progId forzar
  unfold eliminar_programacion
  split
  · next heq => simp [heq]
  · next prog heq =>
      rw [heq]
      split
      · next hprot =>
          refine ⟨?_, fun _ => rfl⟩
          constructor
          · intro htrue
            exact absurd htrue (by simp)
          · rintro ⟨q, hq, hcase⟩
            exfalso
            injection hq with hq
            subst hq
            rcases hprot with ⟨hforzar, hestado⟩
            simp only [Bool.not_eq_true'] at hforzar
            rcases hcase with hf | hs | hc
            · rw [hforzar] at hf
              exact Bool.false_ne_true hf
            · rw [hs] at hestado
              simp at hestado
            · rw [hc] at hestado
              simp at hestado
      · next hprot =>
          refine ⟨?_, fun hfail => by simp at hfail⟩
          constructor
          · intro _
            refine ⟨prog, rfl, ?_⟩
            by_cases hf : forzar
            · exact Or.inl hf
            · right
              rw [not_and] at hprot
              have hf2 : (!forzar) = true := by
                simp only [Bool.not_eq_true] at hf
                rw [hf]
                rfl
              have hnm := hprot hf2
              revert hnm
              cases prog.estado <;> intro hnm <;> simp at hnm <;> simp
          · intro _
            rfl

/-- Witness for the amended C3: deleting the completada programacion is
rejected without force (and leaves the database unchanged), while the
success characterization applies with force. -/
theorem eliminar_caracterizacion_witness :
    ((eliminar_programacion estadoCompletada "PROG-2025-W11-001" false).1.1
        = false →
      (eliminar_programacion estadoCompletada "PROG-2025-W11-001" false).2 =
        estadoCompletada) ∧
    (eliminar_programacion estadoCompletada "PROG-2025-W11-001" false).2 =
      estadoCompletada :=
  ⟨(eliminar_caracterizacion estadoCompletada "PROG-2025-W11-001" false).2,
   (eliminar_caracterizacion estadoCompletada "PROG-2025-W11-001" false).2
     (by rfl)⟩

/-- A database with a planned task whose owning programacion is still a
simulacion and which already has a registered execution. -/
def estadoConEjecucion : DBState :=
  { programaciones :=
      [{ id := "PROG-2025-W13-001", semana := 13, anio := 2025,
         estado := .simulacion, aprobadaPor := none }],
    tareas := [{ id := "A1", duracion := 60 }],
    tareasPlanificadas :=
      [{ id := 1, programacionId := "PROG-2025-W13-001", tareaId := "A1",
         duracionPlanificada := 60 }],
    ejecuciones :=
      [{ id := 1, tareaPlanificadaId := 1, inicioReal := 480, finReal := 540,
         duracionReal := 60, estado := .completada, desviacionDuracion := 0,
         tiempoParadas := 0 }],
    nextEjecucionId := 2 }

/-- C4 counterexample: planned task 1 already has a RealExecution and
its programacion is in estado `simulacion` (not `en_ejecucion`), yet
`registrar_ejecucion_real` succeeds and creates a second RealExecution
for the same planned task. -/
theorem registrar_duplicado_contraejemplo :
    (estadoConEjecucion.ejecuciones.filter
        (fun e => e.tareaPlanificadaId == 1)).length = 1 ∧
    (estadoConEjecucion.programaciones.map (·.estado)) =
      [.simulacion] ∧
    (registrar_ejecucion_real estadoConEjecucion 1 480 545 0).isOk = true ∧
    ((registrar_ejecucion_real estadoConEjecucion 1 480 545 0).toOption.map
      (fun r => (r.2.ejecuciones.filter
        (fun e => e.tareaPlanificadaId == 1)).length)) = some 2 := by
  refine ⟨rfl, rfl, rfl, rfl⟩

/-- C4 (amended): `registrar_ejecucion_real` fails exactly when the
planned-task id is unknown; it checks neither for an existing
RealExecution of the same planned task nor the estado of the owning
programacion, and on success it appends one new execution row — so a
second RealExecution for one planned task can be created. -/
theorem registrar_caracterizacion :
    ∀ s tpId ir fr paradas,
      ((∃ r, registrar_ejecucion_real s tpId ir fr paradas = .ok r) ↔
        (s.tareasPlanificadas.find? (fun t => t.id == tpId)).isSome = true) ∧
      (∀ eid s',
        registrar_ejecucion_real s tpId ir fr paradas = .ok (eid, s') →
        ∃ e, s'.ejecuciones = s.ejecuciones ++ [e] ∧
          e.tareaPlanificadaId = tpId ∧
          s'.programaciones = s.programaciones ∧
          s'.tareasPlanificadas = s.tareasPlanificadas) := by
  intro s tpId ir fr paradas
  unfold registrar_ejecucion_real
  split
  · next heq =>
      constructor
      · rw [heq]
        constructor
        · rintro ⟨r, hr⟩
          cases hr
        · intro hsome
          cases hsome
      · intro eid s' h
        cases h
  · next tp heq =>
      constructor
      · rw [heq]
        exact ⟨fun _ => rfl, fun _ => ⟨_, rfl⟩⟩
      · intro eid s' h
        simp only [Except.ok.injEq, Prod.mk.injEq] at h
        obtain ⟨heid, hs'⟩ := h
        subst hs'
        exact ⟨_, rfl, rfl, rfl, rfl⟩

/-- Witness for the amended C4 at the concrete duplicate-registration
state: the call succeeds (the planned task exists), even though an
execution is already present. -/
theorem registrar_caracterizacion_witness :
    ((∃ r, registrar_ejecucion_real estadoConEjecucion 1 480 545 0 = .ok r) ↔
      (estadoConEjecucion.tareasPlanificadas.find?
        (fun t => t.id == 1)).isSome = true) ∧
    (∃ r, registrar_ejecucion_real estadoConEjecucion 1 480 545 0 = .ok r) :=
  ⟨(registrar_caracterizacion estadoConEjecucion 1 480 545 0).1,
   (registrar_caracterizacion estadoConEjecucion 1 480 545 0).1.mpr (by rfl)⟩

/-- C8: when an execution is registered for a planned task, the stored
`desviacion_duracion` equals
`max(0, duracion_real − tiempo_paradas) − duracion_template` — with
`duracion_real = fin_real − inicio_real` in minutes and
`duracion_template` the original template task's `duracion` looked up
by the base id (the planned-task duration is used only when the
template row is missing) — and the stored estado is `RETRASADA` exactly
when `desviacion_duracion > 30`, `COMPLETADA` otherwise. -/
theorem registrar_desviacion_correcta :
    ∀ s tpId ir fr paradas eid s',
      registrar_ejecucion_real s tpId ir fr paradas = .ok (eid, s') →
      ∃ tp, s.tareasPlanificadas.find? (fun t => t.id == tpId) = some tp ∧
        ∃ e, s'.ejecuciones = s.ejecuciones ++ [e] ∧
          e.duracionReal = fr - ir ∧
          e.tiempoParadas = paradas ∧
          e.desviacionDuracion = max 0 (e.duracionReal - paradas) -
            (match s.tareas.find? (fun t => t.id == tareaIdBase tp.tareaId) with
             | some t => t.duracion
             | none => tp.duracionPlanificada) ∧
          (e.estado = .retrasada ↔ 30 < e.desviacionDuracion) ∧
          (e.estado = .retrasada ∨ e.estado = .completada) := by
  intro s tpId ir fr paradas eid s' h
  unfold registrar_ejecucion_real at h
  split at h
  · cases h
  · next tp heq =>
      refine ⟨tp, heq, ?_⟩
      simp only [Except.ok.injEq, Prod.mk.injEq] at h
      obtain ⟨heid, hs'⟩ := h
      subst hs'
      refine ⟨_, rfl, rfl, rfl, rfl, ?_, ?_⟩
      · by_cases hdesv : 30 <
            max 0 ((fr - ir) - paradas) -
              (match s.tareas.find? (fun t => t.id == tareaIdBase tp.tareaId) with
               | some t => t.duracion
               | none => tp.duracionPlanificada)
        · simp [hdesv]
        · simp [hdesv]
      · by_cases hdesv : 30 <
            max 0 ((fr - ir) - paradas) -
              (match s.tareas.find? (fun t => t.id == tareaIdBase tp.tareaId) with
               | some t => t.duracion
               | none => tp.duracionPlanificada)
        · left
          simp [hdesv]
        · right
          simp [hdesv]

/-- A database for exercising the deviation formula: the planned task
is a split part `A1.P2` with an elongated planned duration of 90, while
the template task `A1` has the original duration 60. -/
def estadoPlantilla : DBState :=
  { programaciones :=
      [{ id := "PROG-2025-W14-001", semana := 14, anio := 2025,
         estado := .enEjecucion, aprobadaPor := some "Supervisor" }],
    tareas := [{ id := "A1", duracion := 60 }],
    tareasPlanificadas :=
      [{ id := 7, programacionId := "PROG-2025-W14-001", tareaId := "A1.P2",
         duracionPlanificada := 90 }],
    ejecuciones := [], nextEjecucionId := 1 }

/-- The database produced by registering a 100-minute execution with 5
minutes of paradas against `estadoPlantilla`: the deviation is
`max(0, 100 − 5) − 60 = 35 > 30`, so the stored estado is RETRASADA. -/
def estadoPlantillaDespues : DBState :=
  { estadoPlantilla with
    ejecuciones :=
      [{ id := 1, tareaPlanificadaId := 7, inicioReal := 0, finReal := 100,
         duracionReal := 100, estado := .retrasada, desviacionDuracion := 35,
         tiempoParadas := 5 }],
    nextEjecucionId := 2 }

/-- Witness for C8: registering against `estadoPlantilla` yields exactly
`estadoPlantillaDespues` and the theorem's conclusions hold there (the
template duration 60 is used, not the planned 90). -/
theorem registrar_desviacion_correcta_witness :
    registrar_ejecucion_real estadoPlantilla 7 0 100 5 =
      .ok (1, estadoPlantillaDespues) ∧
    (∃ tp, estadoPlantilla.tareasPlanificadas.find? (fun t => t.id == 7)
        = some tp ∧
      ∃ e, estadoPlantillaDespues.ejecuciones =
          estadoPlantilla.ejecuciones ++ [e] ∧
        e.duracionReal = 100 - 0 ∧
        e.tiempoParadas = 5 ∧
        e.desviacionDuracion = max 0 (e.duracionReal - 5) -
          (match estadoPlantilla.tareas.find?
              (fun t => t.id == tareaIdBase tp.tareaId) with
           | some t => t.duracion
           | none => tp.duracionPlanificada) ∧
        (e.estado = .retrasada ↔ 30 < e.desviacionDuracion) ∧
        (e.estado = .retrasada ∨ e.estado = .completada)) :=
  ⟨by rfl, registrar_desviacion_correcta estadoPlantilla 7 0 100 5 1
    estadoPlantillaDespues (by rfl)⟩

/-! ## KPI range claims -/

/-- An execution that finished in half its planned time: Performance
200, so OEE = 100·200·100/10000 = 200. -/
def ejecucionRapida : EjecucionKPI :=
  { duracionPlanificada := some 200, duracionReal := some 100,
    tiempoParadas := some 0, problemasEncontrados := none,
    maquinaUsada := none, maquinaPlanificada := none,
    inicioHora := none, finHora := none, diaSemana := none,
    inicioReal := none, finReal := none }

/-- An execution whose real duration exceeds the machine's weekly
capacity of 5·600 = 3000 minutes. -/
def ejecucionLarga : EjecucionKPI :=
  { duracionPlanificada := some 100, duracionReal := some 10000,
    tiempoParadas := some 0, problemasEncontrados := none,
    maquinaUsada := some "M1", maquinaPlanificada := none,
    inicioHora := none, finHora := none, diaSemana := none,
    inicioReal := none, finReal := none }

/-- C5 counterexample: OEE is Availability·Performance·Quality/10000
with Performance unclamped, so a single on-record execution that ran
twice as fast as planned yields OEE = 200 > 100; and the per-machine
`utilizacion_total` is likewise unclamped, exceeding 100 as soon as the
accumulated real minutes exceed the configured weekly capacity. -/
theorem kpi_fuera_de_rango_contraejemplo :
    calcular_oee (calcularDisponibilidad [ejecucionRapida])
      (calcularRendimiento [ejecucionRapida] none none)
      (calcularCalidad [ejecucionRapida]) = 200 ∧
    ¬ calcular_oee (calcularDisponibilidad [ejecucionRapida])
      (calcularRendimiento [ejecucionRapida] none none)
      (calcularCalidad [ejecucionRapida]) ≤ 100 ∧
    ¬ utilizacionTotal ⟨5, 600, 3⟩ [ejecucionLarga] "M1" ≤ 100 := by
  have hplan200 : sumaCampo (·.duracionPlanificada) [ejecucionRapida] = 200 := by
    simp [sumaCampo, ejecucionRapida]
  have hreal100 : sumaCampo (·.duracionReal) [ejecucionRapida] = 100 := by
    simp [sumaCampo, ejecucionRapida]
  have hpar0 : sumaCampo (·.tiempoParadas) [ejecucionRapida] = 0 := by
    simp [sumaCampo, ejecucionRapida]
  have hd : calcularDisponibilidad [ejecucionRapida] = 100 := by
    unfold calcularDisponibilidad
    rw [if_neg (by simp)]
    simp only [hplan200, hpar0]
    norm_num
  have hr : calcularRendimiento [ejecucionRapida] none none = 200 := by
    unfold calcularRendimiento
    rw [if_neg (by simp)]
    simp only [hplan200, hreal100]
    norm_num
  have hc : calcularCalidad [ejecucionRapida] = 100 := by
    unfold calcularCalidad
    rw [if_neg (by simp)]
    norm_num [List.countP_cons, List.countP_nil, sinProblemas, ejecucionRapida]
  have hmaq : maquinaDe ejecucionLarga = some "M1" := by decide
  have hfil : [ejecucionLarga].filter (fun e => maquinaDe e = some "M1") =
      [ejecucionLarga] := by
    simp [hmaq]
  have hu : utilizacionTotal ⟨5, 600, 3⟩ [ejecucionLarga] "M1" = 1000 / 3 := by
    unfold utilizacionTotal
    simp only [hfil]
    norm_num [ejecucionLarga]
  refine ⟨?_, ?_, ?_⟩
  · rw [hd, hr, hc]
    norm_num [calcular_oee]
  · rw [hd, hr, hc]
    norm_num [calcular_oee]
  · rw [hu]
    norm_num

theorem sumaCampo_nonneg (f : EjecucionKPI → Option Int)
    (ejecuciones : List EjecucionKPI)
    (h : ∀ e ∈ ejecuciones, ∀ v, f e = some v → 0 ≤ v) :
    0 ≤ sumaCampo f ejecuciones := by
  unfold sumaCampo
  apply List.sum_nonneg
  intro x hx
  obtain ⟨e, he, hfe⟩ := List.mem_filterMap.mp hx
  exact h e he x hfe

theorem construir_resta (h1 h2 : HoraDia) (d semana anio : Int) :
    construirDatetimePlanificado h2 d semana anio -
      construirDatetimePlanificado h1 d semana anio =
    (minutosDe h2 : Int) - (minutosDe h1 : Int) := by
  unfold construirDatetimePlanificado minutosDe
  push_cast
  ring

theorem calcularDisponibilidad_rango (ejecuciones : List EjecucionKPI) :
    0 ≤ calcularDisponibilidad ejecuciones ∧
    calcularDisponibilidad ejecuciones ≤ 100 := by
  unfold calcularDisponibilidad
  by_cases hne : ejecuciones = []
  · rw [if_pos hne]
    norm_num
  · simp only [if_neg hne]
    by_cases hpos : 0 < sumaCampo (fun e => e.duracionPlanificada) ejecuciones
    · rw [if_pos hpos]
      exact ⟨le_min (by norm_num) (le_max_left _ _), min_le_left _ _⟩
    · rw [if_neg hpos]
      norm_num

theorem calcularCalidad_rango (ejecuciones : List EjecucionKPI) :
    0 ≤ calcularCalidad ejecuciones ∧ calcularCalidad ejecuciones ≤ 100 := by
  unfold calcularCalidad
  split
  · norm_num
  · next hne =>
      have hlen : 0 < (ejecuciones.length : Rat) := by
        have := List.length_pos.mpr hne
        exact_mod_cast this
      have hcount : (ejecuciones.countP sinProblemas : Rat) ≤
          (ejecuciones.length : Rat) := by
        exact_mod_cast List.countP_le_length _
      constructor
      · positivity
      · calc (ejecuciones.countP sinProblemas : Rat) /
              (ejecuciones.length : Rat) * 100
            ≤ 1 * 100 := by
              apply mul_le_mul_of_nonneg_right _ (by norm_num)
              exact (div_le_one hlen).mpr hcount
          _ = 100 := by norm_num

theorem calcularOtif_rango (ejecuciones : List EjecucionKPI)
    (tolerancia : Rat) (semana anio : Option Int) :
    0 ≤ calcularOtif ejecuciones tolerancia semana anio ∧
    calcularOtif ejecuciones tolerancia semana anio ≤ 100 := by
  unfold calcularOtif
  split
  · norm_num
  · next hne =>
      have hlen : 0 < (ejecuciones.length : Rat) := by
        have := List.length_pos.mpr hne
        exact_mod_cast this
      have hcount : (ejecuciones.countP (aTiempo tolerancia semana anio) : Rat) ≤
          (ejecuciones.length : Rat) := by
        exact_mod_cast List.countP_le_length _
      constructor
      · positivity
      · calc (ejecuciones.countP (aTiempo tolerancia semana anio) : Rat) /
              (ejecuciones.length : Rat) * 100
            ≤ 1 * 100 := by
              apply mul_le_mul_of_nonneg_right _ (by norm_num)
              exact (div_le_one hlen).mpr hcount
          _ = 100 := by norm_num

theorem horasIf_nonneg (ejecuciones : List EjecucionKPI) (sv av : Int)
    (hhoras : ∀ e ∈ ejecuciones, ∀ h1 h2, e.inicioHora = some h1 →
      e.finHora = some h2 → minutosDe h1 ≤ minutosDe h2) :
    0 ≤ if sv ≠ 0 ∧ av ≠ 0 then
        (ejecuciones.filterMap (durPlanTotalHoras sv av)).sum
      else (0 : Int) := by
  split
  · apply List.sum_nonneg
    intro x hx
    obtain ⟨e, he, hfe⟩ := List.mem_filterMap.mp hx
    unfold durPlanTotalHoras at hfe
    cases hi : e.inicioHora with
    | none => rw [hi] at hfe; cases hfe
    | some h1 =>
        cases hf : e.finHora with
        | none => rw [hi, hf] at hfe; cases hfe
        | some h2 =>
            cases hd : e.diaSemana with
            | none => rw [hi, hf, hd] at hfe; cases hfe
            | some d =>
                rw [hi, hf, hd] at hfe
                injection hfe with hfe
                rw [← hfe, construir_resta]
                have := hhoras e he h1 h2 hi hf
                omega
  · exact le_refl 0

theorem planTotal_nonneg (horas fallback : Int) (hh : 0 ≤ horas)
    (hf : 0 ≤ fallback) : 0 ≤ if horas = 0 then fallback else horas := by
  split
  · exact hf
  · exact hh

theorem cocienteRendimiento_nonneg (plan real : Int) (hplan : 0 ≤ plan) :
    (0 : Rat) ≤ if 0 < real then (plan : Rat) / (real : Rat) * 100 else 100 := by
  split
  · next h =>
      apply mul_nonneg _ (by norm_num)
      apply div_nonneg
      · exact_mod_cast hplan
      · exact_mod_cast le_of_lt h
  · norm_num

theorem calcularRendimiento_nonneg (ejecuciones : List EjecucionKPI)
    (semana anio : Option Int)
    (hplan : ∀ e ∈ ejecuciones, ∀ v, e.duracionPlanificada = some v → 0 ≤ v)
    (hhoras : ∀ e ∈ ejecuciones, ∀ h1 h2, e.inicioHora = some h1 →
      e.finHora = some h2 → minutosDe h1 ≤ minutosDe h2) :
    0 ≤ calcularRendimiento ejecuciones semana anio := by
  unfold calcularRendimiento
  split
  · norm_num
  · cases semana with
    | none =>
        exact cocienteRendimiento_nonneg _ _
          (planTotal_nonneg _ _ (le_refl 0) (sumaCampo_nonneg _ _ hplan))
    | some sv =>
        cases anio with
        | none =>
            exact cocienteRendimiento_nonneg _ _
              (planTotal_nonneg _ _ (le_refl 0) (sumaCampo_nonneg _ _ hplan))
        | some av =>
            exact cocienteRendimiento_nonneg _ _
              (planTotal_nonneg _ _ (horasIf_nonneg ejecuciones sv av hhoras)
                (sumaCampo_nonneg _ _ hplan))

theorem utilizacionTotal_nonneg (cfg : KPIConfig)
    (ejecuciones : List EjecucionKPI) (maq : String)
    (hreal : ∀ e ∈ ejecuciones, 0 ≤ e.duracionReal.getD 0)
    (hpar : ∀ e ∈ ejecuciones, 0 ≤ e.tiempoParadas.getD 0) :
    0 ≤ utilizacionTotal cfg ejecuciones maq := by
  unfold utilizacionTotal
  have hprod : (0 : Int) ≤
      ((ejecuciones.filter (fun e => maquinaDe e = some maq)).map
        (fun e => e.duracionReal.getD 0)).sum := by
    apply List.sum_nonneg
    intro x hx
    obtain ⟨e, he, hfe⟩ := List.mem_map.mp hx
    rw [← hfe]
    exact hreal e (List.mem_of_mem_filter he)
  have hsetup : (0 : Int) ≤
      ((ejecuciones.filter (fun e => maquinaDe e = some maq)).map
        (fun e => e.tiempoParadas.getD 0)).sum := by
    apply List.sum_nonneg
    intro x hx
    obtain ⟨e, he, hfe⟩ := List.mem_map.mp hx
    rw [← hfe]
    exact hpar e (List.mem_of_mem_filter he)
  have haux : ∀ prod setup disp : Int, 0 ≤ prod → 0 ≤ setup →
      (0 : Rat) ≤ if 0 < disp then
          ((prod + setup : Int) : Rat) / (disp : Rat) * 100
        else 0 := by
    intro prod setup disp hp hs
    split
    · next hdisp =>
        apply mul_nonneg _ (by norm_num)
        apply div_nonneg
        · exact_mod_cast add_nonneg hp hs
        · exact_mod_cast le_of_lt hdisp
    · exact le_refl 0
  exact haux _ _ _ hprod hsetup

/-- C5 (amended): for every list of execution records whose numeric
fields are nonnegative and whose planned clock windows are ordered,
Availability, Quality and OTIF lie in [0,100] (the first is clamped,
the other two are ratios of a count over the total); Performance is
nonnegative but unclamped (it exceeds 100 whenever real time beats the
plan), and consequently OEE = A·P·Q/10000 is nonnegative but can also
exceed 100; each machine's utilizacion_total is nonnegative but
unclamped as well. -/
theorem kpi_rangos (cfg : KPIConfig) (ejecuciones : List EjecucionKPI)
    (semana anio : Option Int) (tolerancia : Rat) (maq : String)
    (hplan : ∀ e ∈ ejecuciones, ∀ v, e.duracionPlanificada = some v → 0 ≤ v)
    (hreal : ∀ e ∈ ejecuciones, 0 ≤ e.duracionReal.getD 0)
    (hpar : ∀ e ∈ ejecuciones, 0 ≤ e.tiempoParadas.getD 0)
    (hhoras : ∀ e ∈ ejecuciones, ∀ h1 h2, e.inicioHora = some h1 →
      e.finHora = some h2 → minutosDe h1 ≤ minutosDe h2) :
    (0 ≤ calcularDisponibilidad ejecuciones ∧
      calcularDisponibilidad ejecuciones ≤ 100) ∧
    (0 ≤ calcularCalidad ejecuciones ∧ calcularCalidad ejecuciones ≤ 100) ∧
    (0 ≤ calcularOtif ejecuciones tolerancia semana anio ∧
      calcularOtif ejecuciones tolerancia semana anio ≤ 100) ∧
    0 ≤ calcularRendimiento ejecuciones semana anio ∧
    0 ≤ calcular_oee (calcularDisponibilidad ejecuciones)
      (calcularRendimiento ejecuciones semana anio)
      (calcularCalidad ejecuciones) ∧
    0 ≤ utilizacionTotal cfg ejecuciones maq := by
  refine ⟨calcularDisponibilidad_rango ejecuciones,
    calcularCalidad_rango ejecuciones,
    calcularOtif_rango ejecuciones tolerancia semana anio,
    calcularRendimiento_nonneg ejecuciones semana anio hplan hhoras, ?_,
    utilizacionTotal_nonneg cfg ejecuciones maq hreal hpar⟩
  unfold calcular_oee
  have h1 := (calcularDisponibilidad_rango ejecuciones).1
  have h2 := calcularRendimiento_nonneg ejecuciones semana anio hplan hhoras
  have h3 := (calcularCalidad_rango ejecuciones).1
  positivity

/-- Witness for the amended C5 at the concrete fast execution of the
counterexample: all the range facts hold there. -/
theorem kpi_rangos_witness :
    (0 ≤ calcularDisponibilidad [ejecucionRapida] ∧
      calcularDisponibilidad [ejecucionRapida] ≤ 100) ∧
    (0 ≤ calcularCalidad [ejecucionRapida] ∧
      calcularCalidad [ejecucionRapida] ≤ 100) ∧
    (0 ≤ calcularOtif [ejecucionRapida] 5 none none ∧
      calcularOtif [ejecucionRapida] 5 none none ≤ 100) ∧
    0 ≤ calcularRendimiento [ejecucionRapida] none none ∧
    0 ≤ calcular_oee (calcularDisponibilidad [ejecucionRapida])
      (calcularRendimiento [ejecucionRapida] none none)
      (calcularCalidad [ejecucionRapida]) ∧
    0 ≤ utilizacionTotal ⟨5, 600, 3⟩ [ejecucionRapida] "M1" :=
  kpi_rangos ⟨5, 600, 3⟩ [ejecucionRapida] none none 5 "M1"
    (by
      intro e he v hv
      rw [List.mem_singleton] at he
      subst he
      simp [ejecucionRapida] at hv
      omega)
    (by decide) (by decide)
    (by
      intro e he h1 h2 hi hf
      rw [List.mem_singleton] at he
      subst he
      exact absurd hi (by simp [ejecucionRapida]))

/-! ## Lemmas for the single-machine objective equivalences -/

theorem le_foldrMax {l : List Nat} {x : Nat} (hx : x ∈ l) :
    x ≤ l.foldr max 0 := by
  induction l with
  | nil => cases hx
  | cons a t ih =>
      rcases List.mem_cons.mp hx with rfl | hmem
      · exact le_max_left _ _
      · exact le_trans (ih hmem) (le_max_right _ _)

theorem foldrMax_le {l : List Nat} {b : Nat} (h : ∀ x ∈ l, x ≤ b) :
    l.foldr max 0 ≤ b := by
  induction l with
  | nil => exact Nat.zero_le b
  | cons a t ih =>
      exact max_le (h a (List.mem_cons_self a t))
        (ih fun x hx => h x (List.mem_cons_of_mem a hx))

theorem sum_map_filter_particion {α : Type} (f : α → Nat) (p : α → Bool)
    (l : List α) :
    ((l.filter p).map f).sum + ((l.filter (fun x => !p x)).map f).sum =
      (l.map f).sum := by
  induction l with
  | nil => simp
  | cons a t ih =>
      by_cases h : p a <;> simp [h] <;> omega

/-- Packing bound: pairwise disjoint intervals contained in `[A, B]`
have total length at most `B - A`. -/
theorem empaque_intervalos (n : Nat) :
    ∀ (l : List (Nat × Nat)) (A B : Nat), l.length ≤ n →
      List.Pairwise (fun p q => p.2 ≤ q.1 ∨ q.2 ≤ p.1) l →
      (∀ p ∈ l, A ≤ p.1) → (∀ p ∈ l, p.2 ≤ B) → (∀ p ∈ l, p.1 ≤ p.2) →
      (l.map (fun p => p.2 - p.1)).sum ≤ B - A := by
  induction n with
  | zero =>
      intro l A B hlen _ _ _ _
      have : l = [] := List.eq_nil_of_length_eq_zero (Nat.le_zero.mp hlen)
      subst this
      simp
  | succ n ih =>
      intro l A B hlen hpw hlo hhi hord
      cases l with
      | nil => simp
      | cons a t =>
          obtain ⟨hhead, hpwt⟩ := List.pairwise_cons.mp hpw
          have hLsub : List.Sublist (t.filter (fun q => q.2 ≤ a.1)) t :=
            List.filter_sublist t
          have hRsub : List.Sublist
              (t.filter (fun q => !(decide (q.2 ≤ a.1)))) t :=
            List.filter_sublist t
          have hsplit := sum_map_filter_particion (fun p => p.2 - p.1)
            (fun q => decide (q.2 ≤ a.1)) t
          have hlenL : (t.filter (fun q => q.2 ≤ a.1)).length ≤ n := by
            have h1 := List.length_filter_le (fun q => decide (q.2 ≤ a.1)) t
            simp only [List.length_cons] at hlen
            omega
          have hlenR : (t.filter (fun q => !(decide (q.2 ≤ a.1)))).length ≤ n := by
            have h1 := List.length_filter_le (fun q => !(decide (q.2 ≤ a.1))) t
            simp only [List.length_cons] at hlen
            omega
          have hL := ih (t.filter (fun q => q.2 ≤ a.1)) A a.1 hlenL
            (hpwt.sublist hLsub)
            (fun q hq => hlo q (List.mem_cons_of_mem a (hLsub.mem hq)))
            (fun q hq => of_decide_eq_true (List.mem_filter.mp hq).2)
            (fun q hq => hord q (List.mem_cons_of_mem a (hLsub.mem hq)))
          have hR := ih (t.filter (fun q => !(decide (q.2 ≤ a.1)))) a.2 B hlenR
            (hpwt.sublist hRsub)
            (fun q hq => by
              have hqt : q ∈ t := hRsub.mem hq
              have hnot : ¬ q.2 ≤ a.1 := by
                have := (List.mem_filter.mp hq).2
                simp only [Bool.not_eq_true', decide_eq_false_iff_not] at this
                exact this
              rcases hhead q hqt with h | h
              · exact h
              · exact absurd h hnot)
            (fun q hq => hhi q (List.mem_cons_of_mem a (hRsub.mem hq)))
            (fun q hq => hord q (List.mem_cons_of_mem a (hRsub.mem hq)))
          have hA : A ≤ a.1 := hlo a (List.mem_cons_self a t)
          have haa : a.1 ≤ a.2 := hord a (List.mem_cons_self a t)
          have hB : a.2 ≤ B := hhi a (List.mem_cons_self a t)
          simp only [List.map_cons, List.sum_cons]
          omega

theorem intervalos_fst_le_snd :
    ∀ (starts : List Nat) (tareas : List TareaOpt),
      ∀ p ∈ intervalos tareas starts, p.1 ≤ p.2 := by
  intro starts
  induction starts with
  | nil => intro tareas p hp; simp [intervalos] at hp
  | cons s st ih =>
      intro tareas p hp
      cases tareas with
      | nil => simp [intervalos] at hp
      | cons t tt =>
          simp only [intervalos, List.zipWith_cons_cons, List.mem_cons] at hp
          rcases hp with rfl | hp
          · exact Nat.le_add_right _ _
          · exact ih tt p hp

theorem sum_longitudes_intervalos :
    ∀ (starts : List Nat) (tareas : List TareaOpt),
      starts.length = tareas.length →
      ((intervalos tareas starts).map (fun p => p.2 - p.1)).sum =
        (tareas.map longitudTotal).sum := by
  intro starts
  induction starts with
  | nil =>
      intro tareas hlen
      cases tareas with
      | nil => simp [intervalos]
      | cons t tt => simp at hlen
  | cons s st ih =>
      intro tareas hlen
      cases tareas with
      | nil => simp at hlen
      | cons t tt =>
          simp only [List.length_cons, Nat.succ_inj'] at hlen
          simp only [intervalos, List.zipWith_cons_cons, List.map_cons,
            List.sum_cons]
          rw [show s + longitudTotal t - s = longitudTotal t by omega]
          have := ih tt hlen
          simp only [intervalos] at this
          omega

theorem fins_le_maxFin (tareas : List TareaOpt) (starts : List Nat) :
    ∀ p ∈ intervalos tareas starts, p.2 ≤ maxFin tareas starts := by
  intro p hp
  exact le_foldrMax (List.mem_map_of_mem (·.2) hp)

theorem maxFin_le_de_cotas (tareas : List TareaOpt) (starts : List Nat)
    (b : Nat) (h : ∀ p ∈ intervalos tareas starts, p.2 ≤ b) :
    maxFin tareas starts ≤ b := by
  apply foldrMax_le
  intro x hx
  obtain ⟨p, hp, rfl⟩ := List.mem_map.mp hx
  exact h p hp

theorem trabajo_le_maxFin (tareas : List TareaOpt) (horizon : Nat)
    (extra : List Nat → Prop) (starts : List Nat)
    (h : coreFactible tareas horizon extra starts) :
    trabajoTotal tareas ≤ maxFin tareas starts := by
  obtain ⟨hlen, _, hpw, _⟩ := h
  have h1 : trabajoTotal tareas ≤ (tareas.map longitudTotal).sum := by
    apply List.sum_le_sum
    intro t _
    exact Nat.le_add_right _ _
  have h2 := (sum_longitudes_intervalos starts tareas hlen).symm
  have h3 := empaque_intervalos (intervalos tareas starts).length
    (intervalos tareas starts) 0 (maxFin tareas starts) (le_refl _) hpw
    (fun p _ => Nat.zero_le _) (fins_le_maxFin tareas starts)
    (intervalos_fst_le_snd starts tareas)
  omega

/-- The start vectors that are makespan-optimal among the core-feasible
ones; each objective model is shown to have exactly this set of optimal
schedules. -/
def optNucleo (tareas : List TareaOpt) (horizon : Nat)
    (extra : List Nat → Prop) : Set (List Nat) :=
  { starts | coreFactible tareas horizon extra starts ∧
      ∀ starts', coreFactible tareas horizon extra starts' →
        maxFin tareas starts ≤ maxFin tareas starts' }

theorem makespanFactible_canonica (tareas : List TareaOpt) (horizon : Nat)
    (extra : List Nat → Prop) (starts : List Nat)
    (h : coreFactible tareas horizon extra starts) :
    makespanFactible tareas horizon extra starts (maxFin tareas starts) :=
  ⟨h, fins_le_maxFin tareas starts, maxFin_le_de_cotas _ _ _ h.2.1⟩

theorem optMakespan_eq (tareas : List TareaOpt) (horizon : Nat)
    (extra : List Nat → Prop) :
    optMakespan tareas horizon extra = optNucleo tareas horizon extra := by
  ext starts
  constructor
  · rintro ⟨m, ⟨hcore, hub, hmh⟩, hmin⟩
    refine ⟨hcore, fun s' hc' => ?_⟩
    have h1 := hmin s' (maxFin tareas s')
      (makespanFactible_canonica tareas horizon extra s' hc')
    have h2 : maxFin tareas starts ≤ m := maxFin_le_de_cotas _ _ _ hub
    omega
  · rintro ⟨hcore, hmin⟩
    refine ⟨maxFin tareas starts,
      makespanFactible_canonica tareas horizon extra starts hcore,
      fun s' m' hf' => ?_⟩
    obtain ⟨hc', hub', _⟩ := hf'
    have h1 := hmin s' hc'
    have h2 : maxFin tareas s' ≤ m' := maxFin_le_de_cotas _ _ _ hub'
    omega

theorem optCostos_eq (tareas : List TareaOpt) (horizon : Nat)
    (extra : List Nat → Prop) :
    optCostos tareas horizon extra = optNucleo tareas horizon extra := by
  ext starts
  constructor
  · rintro ⟨m, t, ⟨hcore, hubm, hmh, hubt, hth⟩, hmin⟩
    refine ⟨hcore, fun s' hc' => ?_⟩
    have h1 := hmin s' (maxFin tareas s') (maxFin tareas s')
      ⟨hc', fins_le_maxFin _ _, maxFin_le_de_cotas _ _ _ hc'.2.1,
        fins_le_maxFin _ _, maxFin_le_de_cotas _ _ _ hc'.2.1⟩
    have h2 : maxFin tareas starts ≤ t := maxFin_le_de_cotas _ _ _ hubt
    omega
  · rintro ⟨hcore, hmin⟩
    refine ⟨maxFin tareas starts, maxFin tareas starts,
      ⟨hcore, fins_le_maxFin _ _, maxFin_le_de_cotas _ _ _ hcore.2.1,
        fins_le_maxFin _ _, maxFin_le_de_cotas _ _ _ hcore.2.1⟩,
      fun s' m' t' hf' => ?_⟩
    obtain ⟨hc', _, _, hubt', _⟩ := hf'
    have h1 := hmin s' hc'
    have h2 : maxFin tareas s' ≤ t' := maxFin_le_de_cotas _ _ _ hubt'
    omega

theorem balanceadoFactible_canonica (tareas : List TareaOpt) (horizon : Nat)
    (extra : List Nat → Prop) (starts : List Nat) (hn : 0 < tareas.length)
    (hcore : coreFactible tareas horizon extra starts) :
    balanceadoFactible tareas horizon extra starts
      (maxFin tareas starts) (maxFin tareas starts)
      (maxFin tareas starts - trabajoTotal tareas)
      (maxFin tareas starts - trabajoTotal tareas)
      (7 * maxFin tareas starts +
        3 * (maxFin tareas starts - trabajoTotal tareas)) := by
  have hW := trabajo_le_maxFin tareas horizon extra starts hcore
  have hmh : maxFin tareas starts ≤ horizon :=
    maxFin_le_de_cotas _ _ _ hcore.2.1
  have hmul : horizon * 1 ≤ horizon * tareas.length :=
    Nat.mul_le_mul_left horizon hn
  refine ⟨hcore, fins_le_maxFin _ _, hmh, fins_le_maxFin _ _, hmh,
    by omega, by omega, rfl, by omega, rfl, by omega⟩

theorem optBalanceado_eq (tareas : List TareaOpt) (horizon : Nat)
    (extra : List Nat → Prop) (hn : 0 < tareas.length) :
    optBalanceado tareas horizon extra = optNucleo tareas horizon extra := by
  unfold optBalanceado
  split
  · ext starts
    constructor
    · rintro ⟨m, tt, idle, tot, obj, hfeas, hmin⟩
      obtain ⟨hcore, hubm, hmh, hubtt, htth, htteq, hidleh, htoteq, htoth,
        hobjeq, hobjh⟩ := hfeas
      refine ⟨hcore, fun s' hc' => ?_⟩
      have hW := trabajo_le_maxFin tareas horizon extra starts hcore
      have hW' := trabajo_le_maxFin tareas horizon extra s' hc'
      have h1 := hmin s' _ _ _ _ _
        (balanceadoFactible_canonica tareas horizon extra s' hn hc')
      have h2 : maxFin tareas starts ≤ m := maxFin_le_de_cotas _ _ _ hubm
      have h3 : maxFin tareas starts ≤ tt := maxFin_le_de_cotas _ _ _ hubtt
      omega
    · rintro ⟨hcore, hmin⟩
      have hW := trabajo_le_maxFin tareas horizon extra starts hcore
      refine ⟨_, _, _, _, _,
        balanceadoFactible_canonica tareas horizon extra starts hn hcore,
        fun s' m' tt' idle' tot' obj' hf' => ?_⟩
      obtain ⟨hc', hubm', hmh', hubtt', htth', htteq', hidleh', htoteq',
        htoth', hobjeq', hobjh'⟩ := hf'
      have h1 := hmin s' hc'
      have hW' := trabajo_le_maxFin tareas horizon extra s' hc'
      have h2 : maxFin tareas s' ≤ m' := maxFin_le_de_cotas _ _ _ hubm'
      have h3 : maxFin tareas s' ≤ tt' := maxFin_le_de_cotas _ _ _ hubtt'
      omega
  · show optMakespan tareas horizon extra = optNucleo tareas horizon extra
    exact optMakespan_eq tareas horizon extra

/-- C9: on an input whose tasks all use one single machine (and at
least one task), the three alternative objective selectors have exactly
the same optimal start vectors as pure makespan minimization:
"Maximizar utilización" degenerates to `Minimize(makespan)` itself
because its auxiliary machine set has one element; "Minimizar costos"
minimizes the single machine's occupancy variable, a least upper bound
of the end times; and "Balanceado" minimizes `7·makespan + 3·idle`,
which on one machine is strictly monotone in the makespan since the
machine's work time is schedule-independent. -/
theorem objetivos_una_maquina (tareas : List TareaOpt) (horizon : Nat)
    (extra : List Nat → Prop) (hn : 0 < tareas.length) :
    optUtilizacion tareas horizon extra = optMakespan tareas horizon extra ∧
    optCostos tareas horizon extra = optMakespan tareas horizon extra ∧
    optBalanceado tareas horizon extra = optMakespan tareas horizon extra := by
  refine ⟨rfl, ?_, ?_⟩
  · rw [optCostos_eq, optMakespan_eq]
  · rw [optBalanceado_eq tareas horizon extra hn, optMakespan_eq]

/-- Witness for C9 on the one-task single-machine input
`duracion = 60, setup = 15` with horizon 540 and trivial extra
constraints. -/
theorem objetivos_una_maquina_witness :
    0 < ([⟨60, 15⟩] : List TareaOpt).length ∧
    (optUtilizacion [⟨60, 15⟩] 540 (fun _ => True) =
        optMakespan [⟨60, 15⟩] 540 (fun _ => True) ∧
      optCostos [⟨60, 15⟩] 540 (fun _ => True) =
        optMakespan [⟨60, 15⟩] 540 (fun _ => True) ∧
      optBalanceado [⟨60, 15⟩] 540 (fun _ => True) =
        optMakespan [⟨60, 15⟩] 540 (fun _ => True)) :=
  ⟨by decide, objetivos_una_maquina [⟨60, 15⟩] 540 (fun _ => True) (by decide)⟩

end OptProd
